import Mathlib

/-!
Verification of the gaxx fleet-orchestration core against its specification.

Shallow embedding of the Go sources:
* `internal/ssh/sftp.go` — secure-transport client (`makeConfig`, `RunCommand`)
* `internal/core/gaxx.go` — `SSHClient.Execute` host-key policy
* `internal/core` chunking (`ChunkInputs`) and file transfer (`TransferFile`)
* `cmd/gaxx/subcommands.go` — `executeTaskOnFleet`, `uploadFilesToFleet`
* `internal/agent/agent.go` — `/v0/exec` response construction

Pure functions are translated directly; goroutine fan-out is modelled as a
step relation (for the semaphore bound) or as a deterministic fold over an
arrival order (for result aggregation), with the nondeterminism made an
explicit parameter.
-/

namespace Gaxx

/-! ## Task Distribution Engine: ChunkInputs (src/unnamed/part_007)

Go source:
```
func ChunkInputs(inputs []string, chunkSize int) [][]string {
    if chunkSize <= 0 {
        return [][]string{inputs}
    }
    var chunks [][]string
    for i := 0; i < len(inputs); i += chunkSize {
        end := i + chunkSize
        if end > len(inputs) {
            end = len(inputs)
        }
        chunks = append(chunks, inputs[i:end])
    }
    return chunks
}
```
The loop is embedded as `chunkLoop inputs k i` where the Go `chunkSize` is
`k + 1` (the loop is only entered with `chunkSize >= 1`, and writing the
step as `k + 1` makes termination structural). `inputs[i:end]` with
`end = min (i+chunkSize) len` is `(inputs.drop i).take (k+1)`.
-/

def chunkLoop (inputs : List String) (k : Nat) (i : Nat) : List (List String) :=
  if _h : i < inputs.length then
    ((inputs.drop i).take (k + 1)) :: chunkLoop inputs k (i + (k + 1))
  else
    []
termination_by inputs.length - i
decreasing_by omega

def ChunkInputs (inputs : List String) (chunkSize : Int) : List (List String) :=
  if chunkSize ≤ 0 then
    [inputs]
  else
    chunkLoop inputs (chunkSize.toNat - 1) 0

theorem chunkLoop_join (inputs : List String) (k : Nat) :
    ∀ i, (chunkLoop inputs k i).flatten = inputs.drop i := by
  intro i
  induction i using chunkLoop.induct inputs k with
  | case1 i h ih =>
    rw [chunkLoop, dif_pos h, List.flatten_cons, ih]
    rw [← List.drop_drop]
    exact List.take_append_drop (k + 1) (inputs.drop i)
  | case2 i h =>
    rw [chunkLoop, dif_neg h]
    simp only [List.flatten_nil]
    rw [List.drop_eq_nil_of_le (by omega)]

theorem chunkLoop_length (inputs : List String) (k : Nat) :
    ∀ i, i < inputs.length →
      (chunkLoop inputs k i).length = (inputs.length - i - 1) / (k + 1) + 1 := by
  intro i
  induction i using chunkLoop.induct inputs k with
  | case1 i h ih =>
    intro _
    rw [chunkLoop, dif_pos h, List.length_cons]
    by_cases h2 : i + (k + 1) < inputs.length
    · rw [ih h2]
      have hm : inputs.length - i - 1 = (inputs.length - (i + (k + 1)) - 1) + (k + 1) := by
        omega
      rw [hm, Nat.add_div_right _ (Nat.succ_pos k)]
    · rw [chunkLoop, dif_neg h2]
      have : inputs.length - i - 1 < k + 1 := by omega
      rw [Nat.div_eq_of_lt this]
      simp
  | case2 i h =>
    intro hi
    exact absurd hi h

theorem chunkLoop_mem_dropLast (inputs : List String) (k : Nat) :
    ∀ i, ∀ c ∈ (chunkLoop inputs k i).dropLast, c.length = k + 1 := by
  intro i
  induction i using chunkLoop.induct inputs k with
  | case1 i h ih =>
    intro c hc
    rw [chunkLoop, dif_pos h] at hc
    by_cases h2 : i + (k + 1) < inputs.length
    · rw [List.dropLast_cons_of_ne_nil] at hc
      · rcases List.mem_cons.mp hc with hc | hc
        · subst hc
          rw [List.length_take, List.length_drop]
          omega
        · exact ih c hc
      · rw [chunkLoop, dif_pos h2]
        exact List.cons_ne_nil _ _
    · rw [chunkLoop, dif_neg h2] at hc
      simp at hc
  | case2 i h =>
    intro c hc
    rw [chunkLoop, dif_neg h] at hc
    simp at hc

/-- C3: concatenating the chunks returned by `ChunkInputs` in order
reproduces the input list exactly; the number of chunks is 1 when
`size ≤ 0` (one possibly-empty chunk holding all items) and
`⌈len/size⌉` otherwise; every chunk except possibly the last has
exactly `size` elements. -/
theorem chunkInputs_spec (inputs : List String) (size : Int) :
    (ChunkInputs inputs size).flatten = inputs ∧
    (size ≤ 0 → ChunkInputs inputs size = [inputs]) ∧
    (0 < size →
      (ChunkInputs inputs size).length
        = (inputs.length + size.toNat - 1) / size.toNat) ∧
    (0 < size →
      ∀ c ∈ (ChunkInputs inputs size).dropLast, c.length = size.toNat) := by
  refine ⟨?_, ?_, ?_, ?_⟩
  · unfold ChunkInputs
    by_cases hs : size ≤ 0
    · rw [if_pos hs]; simp
    · rw [if_neg hs]
      rw [chunkLoop_join]
      exact List.drop_zero inputs
  · intro hs
    unfold ChunkInputs
    rw [if_pos hs]
  · intro hs
    unfold ChunkInputs
    rw [if_neg (by omega)]
    have hk : size.toNat - 1 + 1 = size.toNat := by omega
    by_cases hne : 0 < inputs.length
    · rw [chunkLoop_length inputs _ 0 hne]
      rw [hk]
      have : inputs.length + size.toNat - 1 = (inputs.length - 0 - 1) + size.toNat := by
        omega
      rw [this, Nat.add_div_right _ (by omega)]
    · have h0 : inputs.length = 0 := by omega
      rw [chunkLoop, dif_neg (by omega)]
      rw [List.length_nil, h0]
      have : size.toNat - 1 < size.toNat := by omega
      rw [Nat.zero_add, Nat.div_eq_of_lt (by omega)]
  · intro hs c hc
    unfold ChunkInputs at hc
    rw [if_neg (by omega)] at hc
    have := chunkLoop_mem_dropLast inputs (size.toNat - 1) 0 c hc
    omega

/-- Witness for C3: the spec's own example — inputs `[a,b,c,d,e]`,
size 2 → chunks `[[a,b],[c,d],[e]]` (3 chunks, last of length 1). -/
theorem chunkInputs_spec_witness :
    (ChunkInputs ["a", "b", "c", "d", "e"] 2).flatten = ["a", "b", "c", "d", "e"] ∧
    (ChunkInputs ["a", "b", "c", "d", "e"] 2).length = (5 + (2 : Int).toNat - 1) / (2 : Int).toNat ∧
    ∀ c ∈ (ChunkInputs ["a", "b", "c", "d", "e"] 2).dropLast, c.length = (2 : Int).toNat := by
  obtain ⟨h1, _, h3, h4⟩ := chunkInputs_spec ["a", "b", "c", "d", "e"] 2
  exact ⟨h1, h3 (by norm_num), h4 (by norm_num)⟩

/-! ## Round-robin chunk assignment (src/cmd/gaxx/subcommands.go lines 481-503)

Go source (inside `executeTaskOnFleet`):
```
for i, node := range nodes {
    chunkIdx := i % len(inputChunks)
    chunk := inputChunks[chunkIdx]
    ...
}
```
-/

/-- `providers.Node` (src/unnamed/part_012). -/
structure Node where
  name : String
  ip : String
  id : String
  sshUser : String
  sshPort : Int
deriving DecidableEq

/-- `chunkIdx := i % len(inputChunks)` for the node at 0-indexed position `i`. -/
def assignedChunkIdx (i numChunks : Nat) : Nat := i % numChunks

/-- The chunk indices dispatched across the fleet, one per node position. -/
def dispatchedChunkIdxs (numNodes numChunks : Nat) : List Nat :=
  (List.range numNodes).map (fun i => assignedChunkIdx i numChunks)

/-- The (node, chunk) pairing produced by the dispatch loop. -/
def fleetDispatch (nodes : List Node) (inputChunks : List (List String)) :
    List (Node × List String) :=
  nodes.enum.map (fun p => (p.2, inputChunks.getD (p.1 % inputChunks.length) []))

/-- C4: node at 0-indexed position `i` is assigned chunk `i mod C`; with 5
nodes and 3 chunks the nodes receive chunks 0,1,2,0,1; and when `C > N`
the chunks with index ≥ N are never dispatched to any node. -/
theorem roundRobin_assignment (nodes : List Node) (inputChunks : List (List String))
    (_hC : 1 ≤ inputChunks.length) :
    (∀ i, (h : i < nodes.length) →
      (fleetDispatch nodes inputChunks)[i]? =
        some (nodes.get ⟨i, h⟩,
          inputChunks.getD (assignedChunkIdx i inputChunks.length) [])) ∧
    dispatchedChunkIdxs 5 3 = [0, 1, 2, 0, 1] ∧
    (inputChunks.length > nodes.length →
      ∀ j, nodes.length ≤ j → j ∉ dispatchedChunkIdxs nodes.length inputChunks.length) := by
  refine ⟨?_, by decide, ?_⟩
  · intro i h
    simp only [fleetDispatch, assignedChunkIdx, List.getElem?_map]
    rw [List.getElem?_enum]
    · simp [List.get_eq_getElem, List.getElem?_eq_getElem (by simpa using h)]
  · intro hNC j hj hmem
    simp only [dispatchedChunkIdxs, assignedChunkIdx, List.mem_map, List.mem_range] at hmem
    obtain ⟨i, hi, hij⟩ := hmem
    rw [Nat.mod_eq_of_lt (by omega)] at hij
    omega

/-- Witness for C4: the 5-node 3-chunk example, plus the `C > N` clause at
2 nodes and 4 chunks: chunk index 3 is never dispatched. -/
theorem roundRobin_assignment_witness :
    dispatchedChunkIdxs 5 3 = [0, 1, 2, 0, 1] ∧
    3 ∉ dispatchedChunkIdxs 2 4 := by
  have w5 := roundRobin_assignment
    (List.replicate 5 ⟨"n", "", "", "", 22⟩) (List.replicate 3 []) (by decide)
  have w2 := roundRobin_assignment
    (List.replicate 2 ⟨"n", "", "", "", 22⟩) (List.replicate 4 []) (by decide)
  refine ⟨w5.2.1, ?_⟩
  have := w2.2.2 (by decide) 3 (by decide)
  simpa using this

/-! ## Fleet execution aggregation (src/cmd/gaxx/subcommands.go lines 481-553)

Each node's goroutine computes `result := executeOnNode(ctx, node, task,
chunk, timeout)` — a total function of the node alone (`executeOnNode`
returns a `nodeResult` on every path; on agent failure it builds one with
`ExitCode: 1` and the error text in `Stderr`) — and appends it to
`results[node.Name]` under the mutex.  After `wg.Wait()` the aggregation
loop counts `ExitCode == 0` as successful and anything else as failed, and
the failure report prints each failed node's name and `result.Stderr`.
The final per-node result set does not depend on goroutine completion
order, so the fan-out is embedded as a map over the fleet. -/

/-- `nodeResult` (subcommands.go lines 556-561). -/
structure NodeResult where
  exitCode : Int
  stdout : String
  stderr : String
  duration : Int
deriving DecidableEq

/-- Per-node results as recorded in the shared map: each node's entry is the
result its own goroutine computed, independent of every other node. -/
def fleetResults (nodes : List Node) (execOnNode : Node → NodeResult) :
    List (String × NodeResult) :=
  nodes.map (fun n => (n.name, execOnNode n))

/-- `successful` counter (lines 509-519). -/
def countSuccessful (rs : List (String × NodeResult)) : Nat :=
  (rs.filter (fun p => p.2.exitCode == 0)).length

/-- `failed` counter (lines 509-519). -/
def countFailed (rs : List (String × NodeResult)) : Nat :=
  (rs.filter (fun p => !(p.2.exitCode == 0))).length

/-- The "Failed outputs" report (lines 542-551): node name and stderr of
every result with a non-zero exit code. -/
def failedReport (rs : List (String × NodeResult)) : List (String × String) :=
  (rs.filter (fun p => !(p.2.exitCode == 0))).map (fun p => (p.1, p.2.stderr))

theorem counts_sum (rs : List (String × NodeResult)) :
    countSuccessful rs + countFailed rs = rs.length := by
  unfold countSuccessful countFailed
  induction rs with
  | nil => rfl
  | cons p rest ih =>
    by_cases h : p.2.exitCode == 0 <;>
      simp [List.filter_cons, h] <;> omega

/-- C7: a fleet task run records every node's result unchanged, the
aggregate success/failure counts always cover the whole fleet, and every
failed node's stderr appears in the failure report. -/
theorem fleet_resilience (nodes : List Node) (execOnNode : Node → NodeResult) :
    (fleetResults nodes execOnNode).length = nodes.length ∧
    (∀ i, (h : i < nodes.length) →
      (fleetResults nodes execOnNode)[i]? =
        some ((nodes.get ⟨i, h⟩).name, execOnNode (nodes.get ⟨i, h⟩))) ∧
    countSuccessful (fleetResults nodes execOnNode)
        + countFailed (fleetResults nodes execOnNode) = nodes.length ∧
    (∀ p ∈ fleetResults nodes execOnNode, p.2.exitCode ≠ 0 →
      (p.1, p.2.stderr) ∈ failedReport (fleetResults nodes execOnNode)) := by
  refine ⟨by simp [fleetResults], ?_, ?_, ?_⟩
  · intro i h
    simp [fleetResults, List.getElem?_map, List.getElem?_eq_getElem h]
  · rw [counts_sum]
    simp [fleetResults]
  · intro p hp hcode
    unfold failedReport
    refine List.mem_map.mpr ⟨p, List.mem_filter.mpr ⟨hp, ?_⟩, rfl⟩
    simpa using hcode

/-- Demo fleet for the C7 witness: 4 nodes, node 3 always fails. -/
def demoNodes : List Node :=
  [⟨"node0", "10.0.0.1", "i0", "gx", 22⟩, ⟨"node1", "10.0.0.2", "i1", "gx", 22⟩,
   ⟨"node2", "10.0.0.3", "i2", "gx", 22⟩, ⟨"node3", "10.0.0.4", "i3", "gx", 22⟩]

/-- Demo execution for the C7 witness: node 3 exits non-zero with stderr,
the rest succeed with their own stdout. -/
def demoExec (n : Node) : NodeResult :=
  if n.name = "node3" then ⟨1, "", "boom", 5⟩ else ⟨0, "ok:" ++ n.name, "", 5⟩

/-- Witness for C7: with 4 nodes of which exactly node 3 fails, the run
reports 3 successes and 1 failure, the successful outputs are intact, and
the failed node's stderr is in the report. -/
theorem fleet_resilience_witness :
    countSuccessful (fleetResults demoNodes demoExec)
        + countFailed (fleetResults demoNodes demoExec) = 4 ∧
    countSuccessful (fleetResults demoNodes demoExec) = 3 ∧
    countFailed (fleetResults demoNodes demoExec) = 1 ∧
    (fleetResults demoNodes demoExec)[0]? = some ("node0", ⟨0, "ok:node0", "", 5⟩) ∧
    ("node3", "boom") ∈ failedReport (fleetResults demoNodes demoExec) := by
  have h := fleet_resilience demoNodes demoExec
  refine ⟨h.2.2.1, by decide, by decide, ?_, ?_⟩
  · have := h.2.1 0 (by decide)
    simpa [demoNodes, demoExec] using this
  · exact h.2.2.2 ("node3", demoExec ⟨"node3", "10.0.0.4", "i3", "gx", 22⟩)
      (by decide) (by decide)

/-! ## uploadFilesToFleet (src/cmd/gaxx/subcommands.go lines 753-776)

Go source:
```
errChan := make(chan error, len(nodes))
for _, node := range nodes {
    wg.Add(1)
    go func(node prov.Node) {
        defer wg.Done()
        if err := uploadFilesToNode(ctx, node, files, remoteDir, cfg); err != nil {
            errChan <- fmt.Errorf("upload to %s: %w", node.Name, err)
        }
    }(node)
}
wg.Wait()
close(errChan)
for err := range errChan {
    return err
}
return nil
```
Every node's upload runs to completion and enqueues its own error if it
failed (one goroutine per node; nothing aborts the siblings).  The order in
which errors land in the channel is the goroutines' completion order, which
is nondeterministic; it is made an explicit parameter `arrival` (the fleet's
nodes in completion order).  After the join, the `for ... range errChan`
loop returns on its first iteration, so the caller receives the first
collected error only. -/

/-- `fmt.Errorf("upload to %s: %w", node.Name, err)`. -/
def uploadErrMsg (n : Node) (e : String) : String :=
  "upload to " ++ n.name ++ ": " ++ e

/-- Contents of `errChan` after the join barrier: the formatted error of
every failing node, in completion order `arrival`. -/
def collectedUploadErrors (arrival : List Node) (uploadNode : Node → Option String) :
    List String :=
  arrival.filterMap (fun n => (uploadNode n).map (uploadErrMsg n))

/-- The value `uploadFilesToFleet` returns: the first collected error, or
success when the channel is empty. -/
def uploadFilesToFleet (arrival : List Node) (uploadNode : Node → Option String) :
    Option String :=
  (collectedUploadErrors arrival uploadNode).head?

def cexNodeA : Node := ⟨"alpha", "10.0.0.1", "iA", "gx", 22⟩
def cexNodeB : Node := ⟨"beta", "10.0.0.2", "iB", "gx", 22⟩

/-- Upload outcomes for the C6 counterexample: both nodes fail. -/
def cexUpload (n : Node) : Option String :=
  if n.name = "alpha" then some "errA" else some "errB"

/-- Counterexample to C6: with two nodes both failing, the caller gets back
only the first collected error; node beta's failure is not the reported
value, so not every per-node failure reaches the caller. -/
theorem uploadFleet_cex :
    cexUpload cexNodeB = some "errB" ∧
    uploadFilesToFleet [cexNodeA, cexNodeB] cexUpload
      = some (uploadErrMsg cexNodeA "errA") ∧
    uploadFilesToFleet [cexNodeA, cexNodeB] cexUpload
      ≠ some (uploadErrMsg cexNodeB "errB") := by
  refine ⟨rfl, rfl, ?_⟩
  intro h
  simp [uploadFilesToFleet, collectedUploadErrors, cexUpload, cexNodeA, cexNodeB,
    uploadErrMsg] at h

/-- C6 (amended): per-node transfers run independently — every failing
node's error is collected, no failure aborts the siblings — and the run
succeeds iff every node succeeded; but the caller receives at most one of
the per-node failures (the first collected), not all of them. -/
theorem uploadFleet_amended (arrival : List Node) (uploadNode : Node → Option String) :
    (∀ n ∈ arrival, ∀ e, uploadNode n = some e →
      uploadErrMsg n e ∈ collectedUploadErrors arrival uploadNode) ∧
    (uploadFilesToFleet arrival uploadNode = none ↔
      ∀ n ∈ arrival, uploadNode n = none) ∧
    (∀ m, uploadFilesToFleet arrival uploadNode = some m →
      ∃ n ∈ arrival, ∃ e, uploadNode n = some e ∧ m = uploadErrMsg n e) := by
  refine ⟨?_, ?_, ?_⟩
  · intro n hn e he
    unfold collectedUploadErrors
    exact List.mem_filterMap.mpr ⟨n, hn, by rw [he]; rfl⟩
  · unfold uploadFilesToFleet
    rw [List.head?_eq_none_iff]
    unfold collectedUploadErrors
    constructor
    · intro hnil n hn
      by_contra hne
      obtain ⟨e, he⟩ := Option.ne_none_iff_exists'.mp hne
      have : uploadErrMsg n e ∈ arrival.filterMap
          (fun n => (uploadNode n).map (uploadErrMsg n)) :=
        List.mem_filterMap.mpr ⟨n, hn, by rw [he]; rfl⟩
      rw [hnil] at this
      exact absurd this (List.not_mem_nil _)
    · intro hall
      rw [List.filterMap_eq_nil_iff]
      intro n hn
      rw [hall n hn]
      rfl
  · intro m hm
    unfold uploadFilesToFleet at hm
    have hmem : m ∈ collectedUploadErrors arrival uploadNode := by
      cases hl : collectedUploadErrors arrival uploadNode with
      | nil => rw [hl] at hm; exact absurd hm (by simp)
      | cons a t =>
        rw [hl] at hm
        simp only [List.head?_cons, Option.some.injEq] at hm
        rw [hm]
        exact List.mem_cons_self m t
    obtain ⟨n, hn, hne⟩ := List.mem_filterMap.mp hmem
    refine ⟨n, hn, ?_⟩
    cases he : uploadNode n with
    | none => rw [he] at hne; exact absurd hne (by simp)
    | some e =>
      rw [he] at hne
      exact ⟨e, rfl, by simpa using hne.symm⟩

/-- Upload outcomes where only node beta fails. -/
def onlyBFails (n : Node) : Option String :=
  if n.name = "beta" then some "errB" else none

/-- Witness for C6 (amended claim) at a concrete two-node fleet where only
the second node fails: its error is collected and is the value returned. -/
theorem uploadFleet_amended_witness :
    (uploadErrMsg cexNodeB "errB" ∈
      collectedUploadErrors [cexNodeA, cexNodeB] onlyBFails) ∧
    uploadFilesToFleet [cexNodeA, cexNodeB] onlyBFails
      = some (uploadErrMsg cexNodeB "errB") := by
  have h := uploadFleet_amended [cexNodeA, cexNodeB] onlyBFails
  refine ⟨h.1 cexNodeB (by simp) "errB" (by decide), rfl⟩

/-! ## TransferFile (src/unnamed/part_009 lines 29-84)

The transfer pipeline runs these steps in order, returning the first
error: calculate local SHA-256, connect SSH, create SFTP client, MkdirAll
on the remote parent, open the local file, `sftpClient.Create(remotePath)`
(this is where a file first appears at the destination), `io.Copy`, then
`verifyRemoteChecksum` (NewSession, run `sha256sum | cut`, strip the
trailing newline, compare to the local sum).  Only on a verification
error does the code run `sftpClient.Remove(remotePath)` before returning;
a copy error returns immediately, leaving the half-written file.

Each step's outcome is an explicit parameter (`TransferEnv`), and the
destination-file state is tracked alongside the returned value. -/

/-- Outcome of each I/O step of `TransferFile`, in program order.
`remoteHash` is the output of the remote `sha256sum | cut` command with
the trailing newline already stripped (part_009 lines 157-164). -/
structure TransferEnv where
  localChecksum : Except String String
  sshConnect : Except String Unit
  sftpClient : Except String Unit
  mkdirAll : Except String Unit
  openLocal : Except String Unit
  createRemote : Except String Unit
  copyFile : Except String Unit
  newSession : Except String Unit
  remoteHash : Except String String

/-- State of the destination path when `TransferFile` returns. -/
inductive RemoteFile
  | absent
  | halfWritten
  | written
deriving DecidableEq

/-- `verifyRemoteChecksum` (part_009 lines 149-171). -/
def verifyRemoteChecksum (env : TransferEnv) (expected : String) : Except String Unit :=
  match env.newSession with
  | .error e => .error ("create session: " ++ e)
  | .ok _ =>
    match env.remoteHash with
    | .error e => .error ("calculate remote checksum: " ++ e)
    | .ok remote =>
      if remote ≠ expected then
        .error ("checksum mismatch: expected " ++ expected ++ ", got " ++ remote)
      else
        .ok ()

/-- `TransferFile` (part_009 lines 29-84): the returned error (if any) and
the state of the destination path on return. -/
def TransferFile (env : TransferEnv) : Except String Unit × RemoteFile :=
  match env.localChecksum with
  | .error e => (.error ("calculate local checksum: " ++ e), .absent)
  | .ok localSum =>
    match env.sshConnect with
    | .error e => (.error ("connect SSH: " ++ e), .absent)
    | .ok _ =>
      match env.sftpClient with
      | .error e => (.error ("create SFTP client: " ++ e), .absent)
      | .ok _ =>
        match env.mkdirAll with
        | .error e => (.error ("create remote directory: " ++ e), .absent)
        | .ok _ =>
          match env.openLocal with
          | .error e => (.error ("open local file: " ++ e), .absent)
          | .ok _ =>
            match env.createRemote with
            | .error e => (.error ("create remote file: " ++ e), .absent)
            | .ok _ =>
              match env.copyFile with
              | .error e => (.error ("copy file: " ++ e), .halfWritten)
              | .ok _ =>
                match verifyRemoteChecksum env localSum with
                | .error e =>
                    (.error ("checksum verification failed: " ++ e), .absent)
                | .ok _ => (.ok (), .written)

/-- Environment for the C5 counterexample: every step up to the stream
copy succeeds, then `io.Copy` fails with a connection reset. -/
def cexCopyFailEnv : TransferEnv :=
  { localChecksum := .ok "aabb"
    sshConnect := .ok ()
    sftpClient := .ok ()
    mkdirAll := .ok ()
    openLocal := .ok ()
    createRemote := .ok ()
    copyFile := .error "connection reset"
    newSession := .ok ()
    remoteHash := .error "never reached" }

/-- Counterexample to C5: an I/O error during the stream copy (after the
remote file was created) makes `TransferFile` return an error while the
half-written file is still present at the destination path — the claimed
"no dangling file on any pre-verification I/O error" does not hold. -/
theorem transferFile_cex :
    TransferFile cexCopyFailEnv
      = (.error "copy file: connection reset", .halfWritten) ∧
    (TransferFile cexCopyFailEnv).2 ≠ .absent := by
  refine ⟨rfl, by decide⟩

/-- C5 (amended): `TransferFile` succeeds only when every step succeeded
and the remote hash equals the local hash (the file is then present and
verified); on checksum mismatch — and on any other verification failure —
the remote file is deleted before an integrity error is returned; an
error in any step before the remote file is created leaves nothing at the
destination; but an `io.Copy` error returns with the half-written file
still present at the destination path. -/
theorem transferFile_amended (env : TransferEnv) (localSum : String)
    (hl : env.localChecksum = .ok localSum) :
    ((TransferFile env).1 = .ok () →
      (TransferFile env).2 = .written ∧ env.remoteHash = .ok localSum) ∧
    (∀ r, env.sshConnect = .ok () → env.sftpClient = .ok () →
      env.mkdirAll = .ok () → env.openLocal = .ok () →
      env.createRemote = .ok () → env.copyFile = .ok () →
      env.newSession = .ok () → env.remoteHash = .ok r → r ≠ localSum →
      TransferFile env
        = (.error ("checksum verification failed: "
            ++ ("checksum mismatch: expected " ++ localSum ++ ", got " ++ r)),
           .absent)) ∧
    (∀ e, env.sshConnect = .ok () → env.sftpClient = .ok () →
      env.mkdirAll = .ok () → env.openLocal = .ok () →
      env.createRemote = .ok () → env.copyFile = .error e →
      TransferFile env = (.error ("copy file: " ++ e), .halfWritten)) ∧
    ((TransferFile env).2 = .halfWritten → ∃ e, env.copyFile = .error e) ∧
    ((TransferFile env).2 = .written → (TransferFile env).1 = .ok ()) := by
  obtain ⟨lc, sc, sf, mk, op, cr, cp, ns, rh⟩ := env
  simp only at hl
  subst hl
  refine ⟨?_, ?_, ?_, ?_, ?_⟩
  · intro hok
    cases sc with
    | error e => exact absurd hok (by simp [TransferFile])
    | ok u =>
      cases sf with
      | error e => exact absurd hok (by simp [TransferFile])
      | ok u =>
        cases mk with
        | error e => exact absurd hok (by simp [TransferFile])
        | ok u =>
          cases op with
          | error e => exact absurd hok (by simp [TransferFile])
          | ok u =>
            cases cr with
            | error e => exact absurd hok (by simp [TransferFile])
            | ok u =>
              cases cp with
              | error e => exact absurd hok (by simp [TransferFile])
              | ok u =>
                cases ns with
                | error e =>
                  exact absurd hok (by simp [TransferFile, verifyRemoteChecksum])
                | ok u =>
                  cases rh with
                  | error e =>
                    exact absurd hok (by simp [TransferFile, verifyRemoteChecksum])
                  | ok r =>
                    by_cases hr : r = localSum
                    · subst hr
                      simp [TransferFile, verifyRemoteChecksum]
                    · exact absurd hok
                        (by simp [TransferFile, verifyRemoteChecksum, hr])
  · intro r h1 h2 h3 h4 h5 h6 h7 h8 hne
    simp only at h1 h2 h3 h4 h5 h6 h7 h8
    subst h1; subst h2; subst h3; subst h4; subst h5; subst h6; subst h7; subst h8
    simp [TransferFile, verifyRemoteChecksum, hne]
  · intro e h1 h2 h3 h4 h5 h6
    simp only at h1 h2 h3 h4 h5 h6
    subst h1; subst h2; subst h3; subst h4; subst h5; subst h6
    simp [TransferFile]
  · intro h2
    cases cp with
    | error e => exact ⟨e, rfl⟩
    | ok u =>
      exfalso
      cases sc with
      | error e => simp [TransferFile] at h2
      | ok u =>
        cases sf with
        | error e => simp [TransferFile] at h2
        | ok u =>
          cases mk with
          | error e => simp [TransferFile] at h2
          | ok u =>
            cases op with
            | error e => simp [TransferFile] at h2
            | ok u =>
              cases cr with
              | error e => simp [TransferFile] at h2
              | ok u =>
                cases ns with
                | error e => simp [TransferFile, verifyRemoteChecksum] at h2
                | ok u =>
                  cases rh with
                  | error e => simp [TransferFile, verifyRemoteChecksum] at h2
                  | ok r =>
                    by_cases hr : r = localSum
                    · subst hr
                      simp [TransferFile, verifyRemoteChecksum] at h2
                    · simp [TransferFile, verifyRemoteChecksum, hr] at h2
  · intro h2
    cases sc with
    | error e => simp [TransferFile] at h2
    | ok u =>
      cases sf with
      | error e => simp [TransferFile] at h2
      | ok u =>
        cases mk with
        | error e => simp [TransferFile] at h2
        | ok u =>
          cases op with
          | error e => simp [TransferFile] at h2
          | ok u =>
            cases cr with
            | error e => simp [TransferFile] at h2
            | ok u =>
              cases cp with
              | error e => simp [TransferFile] at h2
              | ok u =>
                cases ns with
                | error e => simp [TransferFile, verifyRemoteChecksum] at h2
                | ok u =>
                  cases rh with
                  | error e => simp [TransferFile, verifyRemoteChecksum] at h2
                  | ok r =>
                    by_cases hr : r = localSum
                    · subst hr
                      simp [TransferFile, verifyRemoteChecksum]
                    · simp [TransferFile, verifyRemoteChecksum, hr] at h2

/-- Witness for C5 (amended claim): a fully-successful concrete transfer
(matching hashes) ends `.written`, and the same environment with a
mismatching remote hash ends `.absent` with the integrity error. -/
theorem transferFile_amended_witness :
    (TransferFile
        { localChecksum := .ok "aabb", sshConnect := .ok (), sftpClient := .ok ()
          mkdirAll := .ok (), openLocal := .ok (), createRemote := .ok ()
          copyFile := .ok (), newSession := .ok (), remoteHash := .ok "aabb" }).2
      = RemoteFile.written ∧
    TransferFile
        { localChecksum := .ok "aabb", sshConnect := .ok (), sftpClient := .ok ()
          mkdirAll := .ok (), openLocal := .ok (), createRemote := .ok ()
          copyFile := .ok (), newSession := .ok (), remoteHash := .ok "ccdd" }
      = (.error "checksum verification failed: checksum mismatch: expected aabb, got ccdd",
         .absent) := by
  constructor
  · have h := transferFile_amended
      { localChecksum := .ok "aabb", sshConnect := .ok (), sftpClient := .ok ()
        mkdirAll := .ok (), openLocal := .ok (), createRemote := .ok ()
        copyFile := .ok (), newSession := .ok (), remoteHash := .ok "aabb" }
      "aabb" rfl
    exact (h.1 rfl).1
  · have h := transferFile_amended
      { localChecksum := .ok "aabb", sshConnect := .ok (), sftpClient := .ok ()
        mkdirAll := .ok (), openLocal := .ok (), createRemote := .ok ()
        copyFile := .ok (), newSession := .ok (), remoteHash := .ok "ccdd" }
      "aabb" rfl
    have := h.2.1 "ccdd" rfl rfl rfl rfl rfl rfl rfl rfl (by decide)
    exact this

/-! ## Agent /v0/exec response construction (src/internal/agent/agent.go lines 88-102)

Go source:
```
out, err := cmd.CombinedOutput()
...
resp := ExecResponse{Stdout: string(out), Stderr: "", Duration: execDuration.Milliseconds()}
...
if err != nil {
    status = "error"
    if exit, ok := err.(*exec.ExitError); ok {
        resp.ExitCode = exit.ExitCode()
    } else {
        resp.ExitCode = 1
    }
}
```
A process-launch failure (binary not found, permission denied) surfaces
from `CombinedOutput` as a non-`ExitError` error with empty output. -/

/-- The error `cmd.CombinedOutput` returns: a `*exec.ExitError` from a
process that ran and exited non-zero, or any other error (launch failure:
binary not found, permission denied, context cancellation). -/
inductive CmdError
  | exitError (code : Int)
  | launchError (msg : String)
deriving DecidableEq

/-- `ExecResponse` (src/internal/agent/mtls.go lines 145-150). -/
structure ExecResponse where
  exitCode : Int
  stdout : String
  stderr : String
  duration : Int
deriving DecidableEq

/-- The `/v0/exec` handler's response construction from the outcome of
`cmd.CombinedOutput()` (output bytes plus optional error). -/
def buildExecResponse (out : String) (err : Option CmdError) (durationMs : Int) :
    ExecResponse :=
  let resp : ExecResponse :=
    { exitCode := 0, stdout := out, stderr := "", duration := durationMs }
  match err with
  | none => resp
  | some (.exitError code) => { resp with exitCode := code }
  | some (.launchError _) => { resp with exitCode := 1 }

/-- Counterexample to C9: a launch failure ("executable file not found")
yields exit code 1 but an *empty* stderr field — the launch error text is
not carried in the response's stderr, contrary to the claim. -/
theorem execLaunchFailure_cex :
    (buildExecResponse "" (some (.launchError "executable file not found")) 3).exitCode
      = 1 ∧
    (buildExecResponse "" (some (.launchError "executable file not found")) 3).stderr
      = "" ∧
    (buildExecResponse "" (some (.launchError "executable file not found")) 3).stderr
      ≠ "executable file not found" := by
  refine ⟨rfl, rfl, by decide⟩

/-- C9 (amended): every launch failure is reported with exit code 1 and an
empty stderr field; the launch error text is not surfaced in the response
(and the stderr field is empty in every response the handler builds). -/
theorem execLaunchFailure_amended (out : String) (msg : String) (d : Int) :
    (buildExecResponse out (some (.launchError msg)) d).exitCode = 1 ∧
    (buildExecResponse out (some (.launchError msg)) d).stderr = "" ∧
    ∀ err, (buildExecResponse out err d).stderr = "" := by
  refine ⟨rfl, rfl, ?_⟩
  intro err
  match err with
  | none => rfl
  | some (.exitError c) => rfl
  | some (.launchError m) => rfl

/-! ## Secure Transport host-key policy (src/internal/ssh/sftp.go lines 101-114,
src/internal/core/gaxx.go lines 64-88)

`Client.makeConfig`:
```
if c.Signer == nil {
    return nil, errors.New("ssh: signer required")
}
if c.KnownHosts == nil {
    c.KnownHosts = xssh.InsecureIgnoreHostKey() // replaced by strict callback by caller normally
}
return &xssh.ClientConfig{ ..., HostKeyCallback: c.KnownHosts, ... }, nil
```

`core.SSHClient.Execute` builds its config with
`HostKeyCallback: ssh.InsecureIgnoreHostKey(), // TODO: Implement proper host key verification`
unconditionally.

A host-key callback is embedded as a boolean predicate on the remote
address and the public key it presents: `true` means the connection is
allowed to proceed. -/

/-- `xssh.HostKeyCallback`: decides whether to accept (host address,
presented public key). -/
def HostKeyCallback : Type := String → String → Bool

/-- `xssh.InsecureIgnoreHostKey()`: accepts every host key. -/
def insecureIgnoreHostKey : HostKeyCallback := fun _ _ => true

/-- The fields of `ssh.Client` that `makeConfig` consults. -/
structure ClientKeyFields where
  signer : Option Unit
  knownHosts : Option HostKeyCallback

/-- The parts of `xssh.ClientConfig` the host-verification claims need. -/
structure ClientConfig where
  hostKeyCallback : HostKeyCallback

/-- `Client.makeConfig` (sftp.go lines 101-114). -/
def makeConfig (c : ClientKeyFields) : Except String ClientConfig :=
  match c.signer with
  | none => .error "ssh: signer required"
  | some _ => .ok { hostKeyCallback := c.knownHosts.getD insecureIgnoreHostKey }

/-- The host-key callback `core.SSHClient.Execute` installs in its
`ssh.ClientConfig` (gaxx.go line 70): `ssh.InsecureIgnoreHostKey()`. -/
def executeHostKeyCallback : HostKeyCallback := insecureIgnoreHostKey

/-- C1 is violated by the code: `core.SSHClient.Execute` dials with
`InsecureIgnoreHostKey`, so a connection to a host presenting an unknown
or mismatched key is accepted, and `makeConfig` silently substitutes the
same insecure callback whenever no known-hosts callback was set — two
production code paths with host verification disabled.  This theorem
evaluates both at a mismatched-key failing input. -/
theorem hostVerification_bypass :
    executeHostKeyCallback "203.0.113.5:22" "ssh-ed25519 ATTACKER-KEY" = true ∧
    (∀ host presentedKey, executeHostKeyCallback host presentedKey = true) ∧
    (makeConfig ⟨some (), none⟩).map
        (fun cfg => cfg.hostKeyCallback "203.0.113.5:22" "ssh-ed25519 ATTACKER-KEY")
      = .ok true := by
  exact ⟨rfl, fun _ _ => rfl, rfl⟩

/-! ## RunCommand retry loop (src/internal/ssh/sftp.go lines 117-168)

```
cfg, err := c.makeConfig()
if err != nil { return "", "", err }
var lastErr error
retries := c.Retries
if retries < 0 { retries = 0 }
for attempt := 0; attempt <= retries; attempt++ {
    select { case <-ctx.Done(): return "", "", ctx.Err(); default: }
    cli, err := xssh.Dial("tcp", c.Addr, cfg)
    if err != nil { lastErr = err } else {
        session, err := cli.NewSession()
        if err == nil {
            stdout, err := session.Output(command)
            if err == nil { return string(stdout), "", nil }
            combined, cErr := session.CombinedOutput(command)
            if cErr == nil { return string(combined), "", nil }
            lastErr = fmt.Errorf("run command: %w", err)
        } else { lastErr = fmt.Errorf("new session: %w", err) }
        _ = cli.Close()
    }
    if attempt < retries {
        select { case <-ctx.Done(): return "", "", ctx.Err()
                 case <-time.After(backoff * time.Duration(attempt+1)): }
    }
}
return "", "", lastErr
```
Every dial error takes the same branch — `lastErr = err` followed by the
backoff and the next attempt; the loop never inspects whether `err` is a
host-key verification failure.  Each attempt's network outcome is an
oracle indexed by the attempt number (each attempt dials a fresh
connection), and cancellation is an oracle queried at the attempt
boundary (covering both `ctx.Done()` checks, which sit between dials).
The embedding also counts the dial attempts performed. -/

/-- Classification of a dial failure.  `knownhosts.New` callbacks make a
host-key mismatch surface as a dial error; the Go loop never looks at
this classification. -/
inductive DialError
  | hostKeyMismatch (msg : String)
  | transient (msg : String)
deriving DecidableEq

def DialError.message : DialError → String
  | .hostKeyMismatch m => m
  | .transient m => m

/-- Outcome of one attempt: the dial, the session creation, and the
command's `Output` / `CombinedOutput` calls. -/
inductive AttemptOutcome
  | dialFailed (e : DialError)
  | sessionFailed (msg : String)
  | outputOk (stdout : String)
  | combinedOk (combined : String)
  | bothFailed (outputErrMsg : String)
deriving DecidableEq

/-- The `for attempt := ...` loop of `RunCommand`: `fuel` is the number of
iterations remaining (`retries + 1` at entry), `i` the attempt index,
`lastErr` the accumulator.  Returns `((stdout, stderr, error), dials)`
where `dials` counts calls to `xssh.Dial`. -/
def runCommandLoop (oracle : Nat → AttemptOutcome) (cancelled : Nat → Bool) :
    Nat → Nat → Option String → (String × String × Option String) × Nat
  | 0, _, lastErr => (("", "", lastErr), 0)
  | fuel + 1, i, lastErr =>
    if cancelled i then
      (("", "", some "context canceled"), 0)
    else
      match oracle i with
      | .outputOk s => ((s, "", none), 1)
      | .combinedOk s => ((s, "", none), 1)
      | .dialFailed e =>
        let r := runCommandLoop oracle cancelled fuel (i + 1) (some e.message)
        (r.1, r.2 + 1)
      | .sessionFailed m =>
        let r := runCommandLoop oracle cancelled fuel (i + 1)
          (some ("new session: " ++ m))
        (r.1, r.2 + 1)
      | .bothFailed m =>
        let r := runCommandLoop oracle cancelled fuel (i + 1)
          (some ("run command: " ++ m))
        (r.1, r.2 + 1)

/-- `Client.RunCommand`: `makeConfig`, then the attempt loop with
`retries + 1` iterations where negative `Retries` is clamped to 0. -/
def RunCommand (signer : Option Unit) (oracle : Nat → AttemptOutcome)
    (cancelled : Nat → Bool) (retriesField : Int) :
    (String × String × Option String) × Nat :=
  match signer with
  | none => (("", "", some "ssh: signer required"), 0)
  | some _ =>
    let retries := if retriesField < 0 then 0 else retriesField.toNat
    runCommandLoop oracle cancelled (retries + 1) 0 none

/-- Counterexample to C2: with `Retries = 2` and every dial failing with a
host-key mismatch, `RunCommand` performs 3 dial attempts (2 retries after
the first failure), not the claimed zero retries. -/
theorem runCommand_hostKey_cex :
    RunCommand (some ())
        (fun _ => .dialFailed (.hostKeyMismatch "knownhosts: key mismatch"))
        (fun _ => false) 2
      = (("", "", some "knownhosts: key mismatch"), 3) ∧
    (RunCommand (some ())
        (fun _ => .dialFailed (.hostKeyMismatch "knownhosts: key mismatch"))
        (fun _ => false) 2).2 ≠ 1 := by
  refine ⟨rfl, by decide⟩

theorem runCommandLoop_persistent (msg : String) (cancelled : Nat → Bool)
    (hcan : ∀ j, cancelled j = false) :
    ∀ fuel i lastErr,
      runCommandLoop (fun _ => .dialFailed (.hostKeyMismatch msg)) cancelled
          fuel i lastErr
        = (("", "", if fuel = 0 then lastErr else some msg), fuel) := by
  intro fuel
  induction fuel with
  | zero => intro i lastErr; rfl
  | succ n ih =>
    intro i lastErr
    rw [runCommandLoop, if_neg (by rw [hcan i]; exact Bool.false_ne_true)]
    simp only [DialError.message, ih (i + 1) (some msg)]
    cases n <;> rfl

/-- C2 (amended): a dial failure caused by host-key verification is
treated exactly like a transient failure — with `Retries = r ≥ 0` and a
persistent host-key mismatch, `RunCommand` performs the full `r + 1` dial
attempts (r retries with backoff) before returning the mismatch error;
nothing in the loop short-circuits on a host-verification failure. -/
theorem runCommand_hostKeyRetries (msg : String) (r : Int) (hr : 0 ≤ r)
    (cancelled : Nat → Bool) (hcan : ∀ j, cancelled j = false) :
    RunCommand (some ()) (fun _ => .dialFailed (.hostKeyMismatch msg)) cancelled r
      = (("", "", some msg), r.toNat + 1) := by
  unfold RunCommand
  rw [if_neg (by omega)]
  rw [runCommandLoop_persistent msg cancelled hcan (r.toNat + 1) 0 none]
  simp

/-- Witness for C2 (amended): at `Retries = 2`, exactly 3 dial attempts. -/
theorem runCommand_hostKeyRetries_witness :
    RunCommand (some ())
        (fun _ => .dialFailed (.hostKeyMismatch "knownhosts: mismatch"))
        (fun _ => false) 2
      = (("", "", some "knownhosts: mismatch"), 3) := by
  have h := runCommand_hostKeyRetries "knownhosts: mismatch" 2 (by norm_num)
    (fun _ => false) (fun _ => rfl)
  exact h

theorem runCommandLoop_stderr (oracle : Nat → AttemptOutcome)
    (cancelled : Nat → Bool) :
    ∀ fuel i lastErr,
      (runCommandLoop oracle cancelled fuel i lastErr).1.2.1 = "" ∧
      ((runCommandLoop oracle cancelled fuel i lastErr).1.2.2 ≠ none →
        (runCommandLoop oracle cancelled fuel i lastErr).1.1 = "") := by
  intro fuel
  induction fuel with
  | zero => intro i lastErr; exact ⟨rfl, fun _ => rfl⟩
  | succ n ih =>
    intro i lastErr
    rw [runCommandLoop]
    by_cases hc : cancelled i
    · rw [if_pos hc]; exact ⟨rfl, fun _ => rfl⟩
    · rw [if_neg hc]
      cases oracle i with
      | outputOk s => exact ⟨rfl, fun h => absurd rfl h⟩
      | combinedOk s => exact ⟨rfl, fun h => absurd rfl h⟩
      | dialFailed e => exact ih (i + 1) _
      | sessionFailed m => exact ih (i + 1) _
      | bothFailed m => exact ih (i + 1) _

/-- C10: for every context, command and outcome, `RunCommand` returns the
empty string in the stderr position; on failure the stdout position is
also empty (only the error is populated); and a first attempt whose
standard-output capture (or combined-output fallback) succeeds returns
that captured output in the stdout position. -/
theorem runCommand_stderr_empty (signer : Option Unit)
    (oracle : Nat → AttemptOutcome) (cancelled : Nat → Bool) (retries : Int) :
    (RunCommand signer oracle cancelled retries).1.2.1 = "" ∧
    ((RunCommand signer oracle cancelled retries).1.2.2 ≠ none →
      (RunCommand signer oracle cancelled retries).1.1 = "") ∧
    (∀ s, signer = some () → cancelled 0 = false → oracle 0 = .outputOk s →
      (RunCommand signer oracle cancelled retries).1 = (s, "", none)) ∧
    (∀ s, signer = some () → cancelled 0 = false → oracle 0 = .combinedOk s →
      (RunCommand signer oracle cancelled retries).1 = (s, "", none)) := by
  refine ⟨?_, ?_, ?_, ?_⟩
  · cases signer with
    | none => rfl
    | some u => exact (runCommandLoop_stderr oracle cancelled _ 0 none).1
  · cases signer with
    | none => intro _; rfl
    | some u => exact (runCommandLoop_stderr oracle cancelled _ 0 none).2
  · intro s hs hc ho
    subst hs
    unfold RunCommand
    rw [runCommandLoop, if_neg (by rw [hc]; exact Bool.false_ne_true), ho]
  · intro s hs hc ho
    subst hs
    unfold RunCommand
    rw [runCommandLoop, if_neg (by rw [hc]; exact Bool.false_ne_true), ho]

/-- Witness for C10: a concrete success returns the captured output with
empty stderr, and a concrete failure returns empty stdout and stderr. -/
theorem runCommand_stderr_empty_witness :
    (RunCommand (some ()) (fun _ => .outputOk "hello") (fun _ => false) 0).1
      = ("hello", "", none) ∧
    (RunCommand (some ()) (fun _ => .bothFailed "exit status 1") (fun _ => false) 0).1.1
      = "" := by
  constructor
  · exact (runCommand_stderr_empty (some ()) (fun _ => .outputOk "hello")
      (fun _ => false) 0).2.2.1 "hello" rfl rfl rfl
  · exact (runCommand_stderr_empty (some ()) (fun _ => .bothFailed "exit status 1")
      (fun _ => false) 0).2.1 (by decide)

/-! ## Bounded-concurrency fan-out (src/cmd/gaxx/subcommands.go lines 472-505)

```
if concurrency <= 0 {
    concurrency = len(nodes)
}
semaphore := make(chan struct{}, concurrency)
var wg sync.WaitGroup
for i, node := range nodes {
    ...
    wg.Add(1)
    go func(node prov.Node, chunk []string) {
        defer wg.Done()
        semaphore <- struct{}{}
        defer func() { <-semaphore }()
        result := executeOnNode(ctx, node, task, chunk, timeout)
        ...
    }(node, chunk)
}
wg.Wait()
```
The goroutine fan-out is embedded as an interleaving transition system:
one worker per node, each in phase `idle` (spawned, not yet holding a
semaphore slot), `running` (slot acquired, `executeOnNode` in flight), or
`done` (slot released).  `semaphore <- struct{}{}` blocks while
`concurrency` slots are held, so a worker may enter `running` only when
fewer than `concurrency` workers are running; the release is a `defer`,
so it fires on every exit path of the goroutine — `executeOnNode` returns
a `nodeResult` on its error paths too, and the slot is released
regardless — which the `finish` step models by requiring only that the
worker is `running`.  `wg.Wait()` returns exactly when every spawned
worker has run `wg.Done()`, i.e. reached `done`. -/

/-- `if concurrency <= 0 { concurrency = len(nodes) }` (lines 472-474). -/
def effectiveConcurrency (configured : Int) (numNodes : Nat) : Nat :=
  if configured ≤ 0 then numNodes else configured.toNat

inductive WorkerPhase
  | idle
  | running
  | done
deriving DecidableEq

/-- Number of workers currently holding a semaphore slot. -/
def runningCount (s : List WorkerPhase) : Nat := s.count .running

/-- Number of workers `wg.Wait()` is still waiting for. -/
def wgOutstanding (s : List WorkerPhase) : Nat :=
  (s.filter (fun p => !(p == .done))).length

/-- One scheduler step of the fan-out under semaphore capacity `k`. -/
inductive PoolStep (k : Nat) : List WorkerPhase → List WorkerPhase → Prop
  | start (s : List WorkerPhase) (i : Nat) (h : i < s.length) :
      s.get ⟨i, h⟩ = .idle → runningCount s < k →
      PoolStep k s (s.set i .running)
  | finish (s : List WorkerPhase) (i : Nat) (h : i < s.length) :
      s.get ⟨i, h⟩ = .running →
      PoolStep k s (s.set i .done)

/-- States reachable from the initial state of a fleet of `n` spawned
workers under semaphore capacity `k`. -/
inductive PoolReach (k n : Nat) : List WorkerPhase → Prop
  | init : PoolReach k n (List.replicate n .idle)
  | step {s t : List WorkerPhase} :
      PoolReach k n s → PoolStep k s t → PoolReach k n t

theorem count_set_aux (a v : WorkerPhase) :
    ∀ (l : List WorkerPhase) (n : Nat) (h : n < l.length),
      (l.set n v).count a + (if l.get ⟨n, h⟩ = a then 1 else 0)
        = l.count a + (if v = a then 1 else 0) := by
  intro l
  induction l with
  | nil => intro n h; exact absurd h (by simp)
  | cons x xs ih =>
    intro n h
    cases n with
    | zero =>
      simp only [List.set_cons_zero, List.count_cons, List.get]
      by_cases hx : x = a <;> by_cases hv : v = a <;>
        simp [hx, hv] <;> omega
    | succ m =>
      simp only [List.set_cons_succ, List.count_cons, List.get]
      have hm : m < xs.length := by simpa using h
      have := ih m hm
      simp only [List.get_eq_getElem] at this ⊢
      by_cases hx : x = a <;> simp [hx] <;> omega

theorem poolReach_running_le (k n : Nat) (s : List WorkerPhase)
    (h : PoolReach k n s) : runningCount s ≤ k := by
  induction h with
  | init => simp [runningCount, List.count_replicate]
  | step _ hstep ih =>
    cases hstep with
    | start i hlt hidle hcnt =>
      have hcs := count_set_aux .running .running _ i hlt
      rw [hidle] at hcs
      simp only [runningCount] at *
      simp at hcs
      omega
    | finish i hlt hrun =>
      have hcs := count_set_aux .running .done _ i hlt
      rw [hrun] at hcs
      simp only [runningCount] at *
      simp at hcs
      omega

theorem wgOutstanding_zero_iff (s : List WorkerPhase) :
    wgOutstanding s = 0 ↔ ∀ p ∈ s, p = .done := by
  unfold wgOutstanding
  rw [List.length_eq_zero]
  rw [List.filter_eq_nil_iff]
  constructor
  · intro hall p hp
    have := hall p hp
    simpa using this
  · intro hall p hp
    simpa using hall p hp

/-- C8: in every state of a fleet task run reachable under semaphore
capacity `effectiveConcurrency cfg N` (which defaults to the fleet size
when the configured limit is ≤ 0), at most that many node executions are
in flight; and the join barrier (`wg.Wait`) releases the caller exactly
when every dispatched worker has finished — the `finish` step releases a
worker's slot whenever it is running, with no success condition, matching
the deferred release on error paths. -/
theorem concurrency_bound (cfg : Int) (N : Nat) (s : List WorkerPhase)
    (h : PoolReach (effectiveConcurrency cfg N) N s) :
    runningCount s ≤ effectiveConcurrency cfg N ∧
    (cfg ≤ 0 → effectiveConcurrency cfg N = N) ∧
    (wgOutstanding s = 0 ↔ ∀ p ∈ s, p = .done) := by
  refine ⟨poolReach_running_le _ _ s h, ?_, wgOutstanding_zero_iff s⟩
  intro hc
  unfold effectiveConcurrency
  rw [if_pos hc]

/-- Witness for C8: a 3-worker fleet with configured limit 1; after worker
0 acquires the slot the reachable state has 1 running worker, within the
bound, and the join barrier is still held (worker 1 and 2 not done). -/
theorem concurrency_bound_witness :
    runningCount [.running, .idle, .idle] ≤ effectiveConcurrency 1 3 ∧
    ¬ wgOutstanding [WorkerPhase.running, .idle, .idle] = 0 := by
  have hreach : PoolReach (effectiveConcurrency 1 3) 3
      [WorkerPhase.running, .idle, .idle] := by
    have hstep : PoolStep (effectiveConcurrency 1 3)
        (List.replicate 3 .idle) [WorkerPhase.running, .idle, .idle] := by
      have := PoolStep.start (k := effectiveConcurrency 1 3)
        (List.replicate 3 WorkerPhase.idle) 0 (by decide) (by decide) (by decide)
      simpa using this
    exact PoolReach.step PoolReach.init hstep
  have h := concurrency_bound 1 3 [WorkerPhase.running, .idle, .idle] hreach
  refine ⟨h.1, ?_⟩
  intro h0
  have := (h.2.2).mp h0 WorkerPhase.running (by simp)
  simp at this

end Gaxx
